import Mathlib

/-!
# Verification of the mcp-go-wrapper schema derivation and invocation pipeline

A shallow embedding of the Go library `mcp-go-wrapper`, covering:

* schema derivation from struct tags: `buildSchema`, `inferType`,
  `parseJSONSchemaTag`, `parseNumber`, `contains` (wrapper.go);
* validation-error formatting: `ValidationError`, `ValidationErrors.Error`,
  `formatValidationErrors`, `formatFieldError` (validator.go);
* the per-invocation pipeline decode, validate, invoke, encode:
  `createHandler` (wrapper.go);
* registration: `Register` (wrapper.go) and `RegisterCobra` (cobra.go).

External collaborators are modelled at their interface boundary: the MCP
protocol host's argument binding and result types, the JSON codec
(`json.Marshal` / `json.Unmarshal`), and the go-playground validator rule
engine (modelled from the design document, see `fieldViolations`).

Go machine integers appear only as tag parameters and decoded field values;
they are modelled as `Int` (no arithmetic in the embedded code overflows).
-/

/-! ## Go reflection shapes

`reflect.Kind` values, restricted to the cases `inferType` distinguishes.
All fixed-width integer kinds behave identically in the source (one case arm
covers Int..Uint64), as do Float32/Float64, so one constructor stands for each
group; `kchan` stands for any kind hitting `inferType`'s default arm. -/

inductive GoKind where
  | kstring
  | kint
  | kfloat
  | kbool
  | kslice
  | karray
  | kmap
  | kstruct
  | kptr
  | kchan
deriving DecidableEq

/-- One struct field as seen by `buildSchema` through reflection: its three
tags (`json`, `jsonschema`, `validate`; the empty string models an absent tag,
as `Tag.Get` returns `""` then) and the `reflect.Kind` of its value type. -/
structure StructField where
  jsonTag : String
  jsonschemaTag : String
  validateTag : String
  fieldKind : GoKind
deriving DecidableEq

/-- A `reflect.Type` at the granularity `buildSchema` inspects it: a struct
with its fields, a pointer with its element type, or any other type
represented by its kind. -/
inductive GoType where
  | tstruct (fields : List StructField)
  | tptr (elem : GoType)
  | tkind (k : GoKind)

/-- Rendering of `reflect.Kind` as `fmt` prints it (the `%s` of the
`argsType must be a struct, got %s` error). -/
def goKindName : GoKind → String
  | .kstring => "string"
  | .kint => "int"
  | .kfloat => "float64"
  | .kbool => "bool"
  | .kslice => "slice"
  | .karray => "array"
  | .kmap => "map"
  | .kstruct => "struct"
  | .kptr => "ptr"
  | .kchan => "chan"

/-- Kind of a modelled `reflect.Type`. -/
def kindName : GoType → String
  | .tstruct _ => "struct"
  | .tptr _ => "ptr"
  | .tkind k => goKindName k

/-- The single pointer dereference done at the top of `buildSchema`
(`if t.Kind() == reflect.Ptr { t = t.Elem() }`). -/
def derefPtr : GoType → GoType
  | .tptr t => t
  | t => t

/-- `inferType` (wrapper.go): map a field's `reflect.Kind` to a JSON-schema
type name; unrecognized kinds default to `"string"`. -/
def inferType (k : GoKind) : String :=
  match k with
  | .kstring => "string"
  | .kint => "integer"
  | .kfloat => "number"
  | .kbool => "boolean"
  | .kslice => "array"
  | .karray => "array"
  | .kmap => "object"
  | .kstruct => "object"
  | _ => "string"

/-! ## Number parsing for jsonschema tag values -/

/-- Value stored in a schema property for a `minimum=` / `maximum=` /
`minLength=` / `maxLength=` token: `parseNumber` produces a Go `int`, a Go
`float64` (modelled as an exact rational, since the tag literals the code
parses are decimal strings), or the original text verbatim. -/
inductive TagNum where
  | intVal (n : Int)
  | floatVal (q : Rat)
  | strVal (s : String)
deriving DecidableEq

/-- Numeric value of a list of decimal digit characters, most significant
first (how `fmt`'s integer scanner accumulates digits). -/
def digitsValue (ds : List Char) : Nat :=
  ds.foldl (fun a c => a * 10 + (c.toNat - 48)) 0

/-- Leading-sign handling shared by `fmt`'s `%d` and `%f` scanners: consume
one optional `+` or `-`; report whether the value is negated. -/
def splitSign (cs : List Char) : Bool × List Char :=
  match cs with
  | [] => (false, [])
  | c :: rest =>
    if c = '-' then (true, rest)
    else if c = '+' then (false, rest)
    else (false, c :: rest)

/-- `fmt.Sscanf(s, "%d", &i)` as used by `parseNumber`: skip leading spaces,
read an optional sign and then a maximal non-empty run of decimal digits.
Trailing unconsumed input is not an error (so `"3.5"` scans as `3`); with no
digits the scan fails. -/
def scanIntD (s : String) : Option Int :=
  let cs := s.data.dropWhile Char.isWhitespace
  let sg := splitSign cs
  let ds := sg.2.takeWhile Char.isDigit
  if ds.isEmpty then none
  else some (if sg.1 then -(digitsValue ds : Int) else (digitsValue ds : Int))

/-- Exponent suffix of `fmt`'s float syntax: `e`/`E`, optional sign, digits;
absent exponent leaves the mantissa unchanged. -/
def scanExp (m : Rat) (cs : List Char) : Option Rat :=
  match cs with
  | 'e' :: r =>
    let sg := splitSign r
    let ed := sg.2.takeWhile Char.isDigit
    if ed.isEmpty then none
    else some (if sg.1 then m / 10 ^ digitsValue ed else m * 10 ^ digitsValue ed)
  | 'E' :: r =>
    let sg := splitSign r
    let ed := sg.2.takeWhile Char.isDigit
    if ed.isEmpty then none
    else some (if sg.1 then m / 10 ^ digitsValue ed else m * 10 ^ digitsValue ed)
  | _ => some m

/-- `fmt.Sscanf(s, "%f", &f)` as used by `parseNumber`: skip spaces, optional
sign, integer digits, optional fraction after `.`, optional exponent; at
least one digit must appear around the decimal point.  The scanned value is
kept as an exact rational (the decimal strings in tags are exactly
representable; none of the embedded code computes with the value).  Exotic
float spellings (`Inf`, `NaN`, hexadecimal) are not modelled. -/
def scanFloatF (s : String) : Option Rat :=
  let cs := s.data.dropWhile Char.isWhitespace
  let sg := splitSign cs
  let ip := sg.2.takeWhile Char.isDigit
  let r2 := sg.2.dropWhile Char.isDigit
  match r2 with
  | '.' :: r3 =>
    let fp := r3.takeWhile Char.isDigit
    if ip.isEmpty && fp.isEmpty then none
    else
      let r4 := r3.dropWhile Char.isDigit
      let mant : Rat := (digitsValue ip : Rat) + (digitsValue fp : Rat) / (10 : Rat) ^ fp.length
      scanExp (if sg.1 then -mant else mant) r4
  | r2' =>
    if ip.isEmpty then none
    else scanExp (if sg.1 then -(digitsValue ip : Rat) else (digitsValue ip : Rat)) r2'

/-- `parseNumber` (wrapper.go): try `Sscanf "%d"`, fall back to
`Sscanf "%f"`, otherwise keep the string verbatim. -/
def parseNumber (s : String) : TagNum :=
  match scanIntD s with
  | some i => .intVal i
  | none =>
    match scanFloatF s with
    | some f => .floatVal f
    | none => .strVal s

/-! ## String helpers mirroring the `strings` package

These are written over `List Char` with plain structural recursion (the
library versions in `String` use position arithmetic), so that every
concrete scenario below evaluates inside the kernel. -/

/-- List-level prefix test used to implement substring search. -/
def isPrefixL : List Char → List Char → Bool
  | [], _ => true
  | _ :: _, [] => false
  | a :: as, b :: bs => a == b && isPrefixL as bs

/-- List-level substring search. -/
def hasSubstrL (sub : List Char) : List Char → Bool
  | [] => isPrefixL sub []
  | c :: rest => isPrefixL sub (c :: rest) || hasSubstrL sub rest

/-- `strings.Contains(s, sub)`. -/
def strContains (s sub : String) : Bool :=
  hasSubstrL sub.data s.data

/-- `strings.HasPrefix(s, p)`. -/
def hasPfx (s p : String) : Bool :=
  isPrefixL p.data s.data

/-- `strings.TrimPrefix(s, p)`: drop `p` when it is a prefix, else return `s`
unchanged. -/
def trimPfx (s p : String) : String :=
  if hasPfx s p then String.mk (s.data.drop p.data.length) else s

/-- `strings.TrimSpace(s)`: strip whitespace from both ends. -/
def trimSpace (s : String) : String :=
  String.mk (((s.data.dropWhile Char.isWhitespace).reverse.dropWhile Char.isWhitespace).reverse)

/-- `strings.Split(s, ",")` on the character list: comma-separated groups,
with `[""]` for the empty string. -/
def splitCommaL : List Char → List (List Char)
  | [] => [[]]
  | c :: rest =>
    if c = ',' then [] :: splitCommaL rest
    else
      match splitCommaL rest with
      | [] => [[c]]
      | g :: gs => (c :: g) :: gs

/-- `strings.Split(s, ",")`. -/
def splitComma (s : String) : List String :=
  (splitCommaL s.data).map String.mk

/-- `strings.Join(parts, sep)` (also standing in for the message-building
loop of `ValidationErrors.Error`). -/
def joinSep (sep : String) : List String → String
  | [] => ""
  | [x] => x
  | x :: xs => x ++ sep ++ joinSep sep xs

/-- `contains` (wrapper.go): linear membership scan over a string slice. -/
def contains (slice : List String) (item : String) : Bool :=
  slice.any (fun s => s == item)

/-! ## Schema properties and derivation -/

/-- One property object of the derived schema (`prop` in `buildSchema`, a
`map[string]interface` with the fixed keys below; `none` models an absent
key). -/
structure SchemaProp where
  typ : String
  description : Option String
  enum : Option (List String)
  minimum : Option TagNum
  maximum : Option TagNum
  minLength : Option TagNum
  maxLength : Option TagNum
deriving DecidableEq

/-- A property carrying only its inferred type, as first built per field. -/
def emptyProp (t : String) : SchemaProp :=
  SchemaProp.mk t none none none none none none

/-- `mcp.ToolInputSchema`: the Go `Properties` map is modelled as an
association list keyed by wire name (Go map iteration order is unspecified;
insertion here follows field order, with later assignments to the same key
overwriting, see `mapInsert`).  The `Required` slice is ordered. -/
structure ToolInputSchema where
  typ : String
  properties : List (String × SchemaProp)
  required : List String
deriving DecidableEq

/-- Assignment `properties[jsonName] = prop` on the modelled map: replace an
existing binding for the key, otherwise append. -/
def mapInsert (m : List (String × SchemaProp)) (k : String) (v : SchemaProp) :
    List (String × SchemaProp) :=
  if m.any (fun p => p.1 == k) then m.map (fun p => if p.1 == k then (k, v) else p)
  else m ++ [(k, v)]

/-- One iteration of the `for _, part := range parts` loop of
`parseJSONSchemaTag`.  The accumulator carries the property under
construction, the required list and the `enumValues` slice local to the
call. -/
def parsePart (fieldName : String) (acc : SchemaProp × List String × List String)
    (rawPart : String) : SchemaProp × List String × List String :=
  let part := trimSpace rawPart
  if part = "required" then
    if contains acc.2.1 fieldName then acc
    else (acc.1, acc.2.1 ++ [fieldName], acc.2.2)
  else if hasPfx part "description=" then
    ({ acc.1 with description := some (trimPfx part "description=") }, acc.2.1, acc.2.2)
  else if hasPfx part "enum=" then
    (acc.1, acc.2.1, acc.2.2 ++ [trimPfx part "enum="])
  else if hasPfx part "minimum=" then
    ({ acc.1 with minimum := some (parseNumber (trimPfx part "minimum=")) }, acc.2.1, acc.2.2)
  else if hasPfx part "maximum=" then
    ({ acc.1 with maximum := some (parseNumber (trimPfx part "maximum=")) }, acc.2.1, acc.2.2)
  else if hasPfx part "minLength=" then
    ({ acc.1 with minLength := some (parseNumber (trimPfx part "minLength=")) }, acc.2.1, acc.2.2)
  else if hasPfx part "maxLength=" then
    ({ acc.1 with maxLength := some (parseNumber (trimPfx part "maxLength=")) }, acc.2.1, acc.2.2)
  else acc

/-- `parseJSONSchemaTag` (wrapper.go): split the tag on commas, process each
trimmed part, then attach the accumulated `enumValues` when non-empty. -/
def parseJSONSchemaTag (tag : String) (prop : SchemaProp) (required : List String)
    (fieldName : String) : SchemaProp × List String :=
  let parts := splitComma tag
  let res := parts.foldl (parsePart fieldName) (prop, required, [])
  let finalProp := if res.2.2.isEmpty then res.1 else { res.1 with enum := some res.2.2 }
  (finalProp, res.2.1)

/-- Wire-facing name of a field: `strings.Split(jsonTag, ",")[0]`. -/
def wireName (f : StructField) : String :=
  (splitComma f.jsonTag).headD ""

/-- The `jsonSchemaTag` block of `buildSchema`'s field loop: build the
property from the inferred type and run `parseJSONSchemaTag` on it when the
jsonschema tag is present (`Tag.Get` returned non-empty). -/
def schemaTagPass (field : StructField) (required : List String) :
    SchemaProp × List String :=
  let prop0 := emptyProp (inferType field.fieldKind)
  if field.jsonschemaTag ≠ "" then
    parseJSONSchemaTag field.jsonschemaTag prop0 required (wireName field)
  else (prop0, required)

/-- The `validateTag` block of `buildSchema`'s field loop: when the validate
tag is non-empty, contains `required` as a substring and the wire name is
not yet listed, append the wire name to the required list. -/
def validateTagPass (field : StructField) (jsonName : String) (required : List String) :
    List String :=
  if field.validateTag ≠ "" ∧ strContains field.validateTag "required" = true
      ∧ ¬ contains required jsonName = true then
    required ++ [jsonName]
  else required

/-- Body of the `for i := 0; i < t.NumField(); i++` loop of `buildSchema`:
skip fields with an absent or `-` json tag; otherwise run the jsonschema tag
block, then the validate tag block, then store the property under the wire
name. -/
def processField (acc : List (String × SchemaProp) × List String) (field : StructField) :
    List (String × SchemaProp) × List String :=
  if field.jsonTag = "" ∨ field.jsonTag = "-" then acc
  else
    let jsonName := wireName field
    let pr := schemaTagPass field acc.2
    (mapInsert acc.1 jsonName pr.1, validateTagPass field jsonName pr.2)

/-- `buildSchema` (wrapper.go): dereference one pointer, fail unless the
result is a struct, otherwise fold `processField` over the fields in
declaration order.  (The Go code leaves `Required` nil when empty; an empty
list models that.) -/
def buildSchema (argsType : GoType) : Except String ToolInputSchema :=
  match derefPtr argsType with
  | .tstruct fields =>
    let res := fields.foldl processField ([], [])
    .ok (ToolInputSchema.mk "object" res.1 res.2)
  | t => .error ("argsType must be a struct, got " ++ kindName t)

/-- A field is marked required in the sense of `buildSchema`: some trimmed
comma-part of the jsonschema tag is the bare token `required`, or the
validate tag is non-empty and contains `required` as a substring. -/
def markedRequired (f : StructField) : Bool :=
  (splitComma f.jsonschemaTag).any (fun p => trimSpace p == "required")
    || (f.validateTag != "" && strContains f.validateTag "required")

/-! ## Validation-error formatting (validator.go) -/

/-- One field error as reported by the go-playground validator library
(`validator.FieldError`), restricted to the accessors the code calls:
`Field()` (the struct field name, by the library's default naming),
`Tag()` and `Param()`. -/
structure LibFieldError where
  field : String
  tag : String
  param : String
deriving DecidableEq

/-- The Go `error` returned by `validator.Struct`: either the library's
`validator.ValidationErrors` slice, or some other error carrying only a
message (the `ok` type assertion in `formatValidationErrors` distinguishes
the two). -/
inductive GoError where
  | validationErrors (errs : List LibFieldError)
  | other (msg : String)
deriving DecidableEq

/-- `ValidationError` (validator.go). -/
structure ValidationError where
  Field : String
  Message : String
deriving DecidableEq

/-- `(*ValidationError).Error()`: rendered as `field: message`. -/
def ValidationError.Error (e : ValidationError) : String :=
  e.Field ++ ": " ++ e.Message

/-- `ValidationErrors` (validator.go). -/
abbrev ValidationErrors := List ValidationError

/-- `ValidationErrors.Error()`: the aggregate message, semicolon-joined in
collection order with the fixed `validation failed: ` prefix. -/
def ValidationErrors.Error (e : ValidationErrors) : String :=
  "validation failed: " ++ joinSep "; " (e.map ValidationError.Error)

/-- `formatFieldError` (validator.go): fixed message template per rule tag;
unknown tags render as `failed validation: tag`. -/
def formatFieldError (fieldErr : LibFieldError) : String :=
  match fieldErr.tag with
  | "required" => "is required"
  | "min" => "must be at least " ++ fieldErr.param
  | "max" => "must be at most " ++ fieldErr.param
  | "email" => "must be a valid email address"
  | "url" => "must be a valid URL"
  | "oneof" => "must be one of: " ++ fieldErr.param
  | "gte" => "must be greater than or equal to " ++ fieldErr.param
  | "lte" => "must be less than or equal to " ++ fieldErr.param
  | "gt" => "must be greater than " ++ fieldErr.param
  | "lt" => "must be less than " ++ fieldErr.param
  | "len" => "must be " ++ fieldErr.param ++ " characters long"
  | t => "failed validation: " ++ t

/-- Result of `formatValidationErrors`: the converted `ValidationErrors`
aggregate, or the original error passed through when the type assertion
fails. -/
inductive FormattedError where
  | aggregated (errs : ValidationErrors)
  | passthrough (msg : String)
deriving DecidableEq

/-- `formatValidationErrors` (validator.go): convert each library field error
to a `ValidationError` addressed by `fieldErr.Field()`, preserving order;
pass any non-`ValidationErrors` error through unchanged. -/
def formatValidationErrors : GoError → FormattedError
  | .validationErrors verrs =>
    .aggregated (verrs.map (fun fieldErr => ValidationError.mk fieldErr.field (formatFieldError fieldErr)))
  | .other m => .passthrough m

/-- `Error()` on the value `formatValidationErrors` returned (what
`createHandler` passes to `NewToolResultError`). -/
def errorMessage : FormattedError → String
  | .aggregated errs => ValidationErrors.Error errs
  | .passthrough m => m

/-! ## JSON values and the encode stage -/

/-! JSON documents, for the images of `json.Marshal`.  Objects and arrays are
mutually inductive lists so that rendering is structurally recursive. -/

mutual
inductive JsonValue where
  | null
  | jstr (s : String)
  | jnum (q : Rat)
  | jbool (b : Bool)
  | jarr (items : JsonList)
  | jobj (fields : JsonFields)

inductive JsonList where
  | nil
  | cons (hd : JsonValue) (tl : JsonList)

inductive JsonFields where
  | fnil
  | fcons (key : String) (val : JsonValue) (tl : JsonFields)
end

/-! Textual rendering of a JSON value (`string(resultJSON)`); string escaping
beyond the surrounding quotes is not modelled (no embedded theorem inspects a
string needing escapes). -/

mutual
def renderJson : JsonValue → String
  | .null => "null"
  | .jstr s => "\"" ++ s ++ "\""
  | .jnum q => toString q
  | .jbool b => if b then "true" else "false"
  | .jarr items => "[" ++ renderJsonList items ++ "]"
  | .jobj fields => "\x7b" ++ renderJsonFields fields ++ "\x7d"

def renderJsonList : JsonList → String
  | .nil => ""
  | .cons v .nil => renderJson v
  | .cons v tl => renderJson v ++ "," ++ renderJsonList tl

def renderJsonFields : JsonFields → String
  | .fnil => ""
  | .fcons k v .fnil => "\"" ++ k ++ "\":" ++ renderJson v
  | .fcons k v tl => "\"" ++ k ++ "\":" ++ renderJson v ++ "," ++ renderJsonFields tl
end

/-- A handler result (`interface` value) at the granularity the encode stage
observes: the nil interface (marshals to JSON `null`), a Go `string` (the
only case the `result.(string)` type assertion accepts), any other
marshalable value carried with its JSON image, or an unmarshalable value
(function, channel, ...) on which `json.Marshal` fails with the given
message. -/
inductive GoVal where
  | vnull
  | vstr (s : String)
  | vjson (j : JsonValue)
  | vbad (msg : String)

/-- `json.Marshal` on a handler result. -/
def jsonMarshal : GoVal → Except String JsonValue
  | .vnull => .ok .null
  | .vstr s => .ok (.jstr s)
  | .vjson j => .ok j
  | .vbad m => .error m

/-- Whether `json.Unmarshal(resultJSON, &resultMap)` succeeds for a
`map[string]interface` target: it does exactly when the document is an
object, or `null` (which unmarshals as a no-op into any target). -/
def unmarshalsToMap : JsonValue → Bool
  | .null => true
  | .jobj _ => true
  | _ => false

/-! ## The invocation pipeline (createHandler, wrapper.go) -/

/-- `mcp.CallToolResult`, restricted to what the wrapper produces: an
`IsError` flag and one text content. -/
structure CallToolResult where
  isError : Bool
  text : String
deriving DecidableEq

/-- `mcp.NewToolResultError`. -/
def NewToolResultError (msg : String) : CallToolResult :=
  CallToolResult.mk true msg

/-- `mcp.NewToolResultText`. -/
def NewToolResultText (txt : String) : CallToolResult :=
  CallToolResult.mk false txt

/-- `createHandler` (wrapper.go): the closure run per invocation.  The
external collaborators are parameters: `bindArguments` is the protocol
host's `request.BindArguments` (decode into a freshly allocated typed
instance), `validateStruct` is `w.validator.Struct` (`none` means valid),
`handler` is the registered business handler.  Every branch returns a
`CallToolResult` paired with the transport-level error, which is `nil`
(`none`) on all paths. -/
def createHandler {Req Args : Type}
    (bindArguments : Req → Except String Args)
    (validateStruct : Args → Option GoError)
    (handler : Args → Except String GoVal)
    (request : Req) : CallToolResult × Option String :=
  match bindArguments request with
  | .error e => (NewToolResultError ("failed to bind arguments: " ++ e), none)
  | .ok argsValue =>
    match validateStruct argsValue with
    | some err => (NewToolResultError (errorMessage (formatValidationErrors err)), none)
    | none =>
      match handler argsValue with
      | .error m => (NewToolResultError ("handler error: " ++ m), none)
      | .ok result =>
        match jsonMarshal result with
        | .error e => (NewToolResultError ("failed to marshal result: " ++ e), none)
        | .ok resultJSON =>
          if unmarshalsToMap resultJSON then
            (NewToolResultText (renderJson resultJSON), none)
          else
            match result with
            | .vstr s => (NewToolResultText s, none)
            | _ => (NewToolResultError "failed to format result: json: cannot unmarshal into Go value of type map", none)

/-! ## Registration (Register, wrapper.go; RegisterCobra, cobra.go) -/

/-- A tool as held by the MCP server after `AddTool`: name, description and
the derived input schema (`Register` always overwrites the placeholder
schema built by `mcp.NewTool` with the derived one, since `buildSchema`
never returns a nil schema without an error). -/
structure Tool where
  name : String
  description : String
  inputSchema : ToolInputSchema
deriving DecidableEq

/-- `Register` (wrapper.go), with the server's tool list made explicit: on
schema failure return the wrapped error and leave the list unchanged (Go
returns before `AddTool`); on success append the tool and return nil
error. -/
def Register (tools : List Tool) (name description : String) (argsType : GoType) :
    List Tool × Option String :=
  match buildSchema argsType with
  | .error e => (tools, some ("failed to build schema for tool " ++ name ++ ": " ++ e))
  | .ok schema => (tools ++ [Tool.mk name description schema], none)

/-- `cobra.Command`, restricted to the three fields `RegisterCobra` reads. -/
structure CobraCommand where
  use : String
  short : String
  long : String
deriving DecidableEq

/-- `RegisterCobra` (cobra.go): fail when `Use` is empty; otherwise take the
description from `Short`, falling back to `Long`, falling back to
`Execute name command`, and delegate to `Register`. -/
def RegisterCobra (tools : List Tool) (cmd : CobraCommand) (argsType : GoType) :
    List Tool × Option String :=
  if cmd.use = "" then (tools, some "cobra command must have a Use field")
  else
    let name := cmd.use
    let d1 := cmd.short
    let d2 := if d1 = "" then cmd.long else d1
    let description := if d2 = "" then "Execute " ++ name ++ " command" else d2
    Register tools name description argsType

/-! ## The validation rule engine, modelled from the design document

The rule evaluation itself lives in the external go-playground validator
library, not in this repository; only its output formatting
(`formatValidationErrors`) is repository code.  The evaluator below is
therefore modelled from the design document's Validation Gate contract
(rule semantics, in-order evaluation, full collection with no short-circuit
across fields), restricted to the rule names the scenarios exercise.  Field
addressing follows the library's default, which the repository's README
documents (`validation failed: Name: is required; ...`): `Field()` is the
Go struct field name, not the wire name. -/

/-- Modelled from the spec: a decoded field value, either text or numeric
(the two shapes the scenarios exercise). -/
inductive FieldVal where
  | fstr (s : String)
  | fint (n : Int)
deriving DecidableEq

/-- Modelled from the spec: one named validation rule with its parameter. -/
inductive VRule where
  | required
  | omitempty
  | minRule (p : Nat)
  | maxRule (p : Nat)
  | gteRule (p : Int)
  | lteRule (p : Int)
  | gtRule (p : Int)
  | ltRule (p : Int)
  | lenRule (p : Nat)
  | oneofRule (vals : List String)
deriving DecidableEq

/-- Tag name of a rule, as `FieldError.Tag()` reports it. -/
def VRule.tag : VRule → String
  | .required => "required"
  | .omitempty => "omitempty"
  | .minRule _ => "min"
  | .maxRule _ => "max"
  | .gteRule _ => "gte"
  | .lteRule _ => "lte"
  | .gtRule _ => "gt"
  | .ltRule _ => "lt"
  | .lenRule _ => "len"
  | .oneofRule _ => "oneof"

/-- Parameter of a rule, as `FieldError.Param()` reports it. -/
def VRule.param : VRule → String
  | .required => ""
  | .omitempty => ""
  | .minRule p => toString p
  | .maxRule p => toString p
  | .gteRule p => toString p
  | .lteRule p => toString p
  | .gtRule p => toString p
  | .ltRule p => toString p
  | .lenRule p => toString p
  | .oneofRule vals => joinSep " " vals

/-- Modelled from the spec: a field value equals its type's zero value. -/
def isZeroVal : FieldVal → Bool
  | .fstr s => s = ""
  | .fint n => n = 0

/-- Modelled from the spec: whether a single rule passes on a value.
Length-based rules compare character counts on text and the value itself on
numbers. -/
def ruleSatisfied (v : FieldVal) : VRule → Bool
  | .required => ¬ isZeroVal v
  | .omitempty => true
  | .minRule p =>
    match v with
    | .fstr s => p ≤ s.length
    | .fint n => (p : Int) ≤ n
  | .maxRule p =>
    match v with
    | .fstr s => s.length ≤ p
    | .fint n => n ≤ (p : Int)
  | .gteRule p =>
    match v with
    | .fstr s => p ≤ (s.length : Int)
    | .fint n => p ≤ n
  | .lteRule p =>
    match v with
    | .fstr s => (s.length : Int) ≤ p
    | .fint n => n ≤ p
  | .gtRule p =>
    match v with
    | .fstr s => p < (s.length : Int)
    | .fint n => p < n
  | .ltRule p =>
    match v with
    | .fstr s => (s.length : Int) < p
    | .fint n => n < p
  | .lenRule p =>
    match v with
    | .fstr s => s.length = p
    | .fint n => n = (p : Int)
  | .oneofRule vals =>
    match v with
    | .fstr s => contains vals s
    | .fint n => contains vals (toString n)

/-- Modelled from the spec: evaluate one field's rule sequence in order,
emitting one library field error per violated rule; an `omitempty` rule on a
zero-valued field skips all remaining rules without a violation. -/
def fieldViolations (name : String) (v : FieldVal) : List VRule → List LibFieldError
  | [] => []
  | r :: rest =>
    match r with
    | .omitempty => if isZeroVal v then [] else fieldViolations name v rest
    | rule =>
      (if ruleSatisfied v rule then [] else [LibFieldError.mk name rule.tag rule.param])
        ++ fieldViolations name v rest

/-- Modelled from the spec: one field of a decoded struct instance, carrying
the Go struct field name (what the library's `Field()` reports), the wire
name from its json tag, its decoded value and its validation rules. -/
structure StructInstanceField where
  goName : String
  jsonName : String
  value : FieldVal
  rules : List VRule
deriving DecidableEq

/-- Modelled from the spec: all violations of an instance, fields in
declaration order, each field's violations in rule order, collected in full
with no short-circuit across fields. -/
def collectViolations : List StructInstanceField → List LibFieldError
  | [] => []
  | f :: rest => fieldViolations f.goName f.value f.rules ++ collectViolations rest

/-- Modelled from the spec: `validator.Struct` on a decoded instance —
`none` when no rule is violated, otherwise the library's aggregate error. -/
def validateStructModel (fields : List StructInstanceField) : Option GoError :=
  let errs := collectViolations fields
  if errs.isEmpty then none else some (.validationErrors errs)

/-! ## Concrete scenarios and shape predicate -/

/-- Whether a modelled `reflect.Type` is a struct (record) shape. -/
def isStructShape : GoType → Bool
  | .tstruct _ => true
  | _ => false

/-- A field marked required twice in the jsonschema tag and once (by
substring) in the validate tag. -/
def doublyMarkedField : StructField :=
  StructField.mk "name" "required,required" "required" GoKind.kstring

/-- A field whose validate tag contains `required` only embedded inside the
different rule token `required_without`. -/
def embeddedTokenField : StructField :=
  StructField.mk "flag" "" "required_without" GoKind.kstring

/-- Modelled from the spec: Scenario A's decoded instance for
`{"name":"Al","age":30}` — field `Name` (wire name `name`, rules
`required,min=3`) holding `"Al"`, field `Age` (wire name `age`, no validate
rules) holding `30`. -/
def scenarioAInvalid : List StructInstanceField :=
  [StructInstanceField.mk "Name" "name" (FieldVal.fstr "Al") [VRule.required, VRule.minRule 3],
   StructInstanceField.mk "Age" "age" (FieldVal.fint 30) []]

/-- Modelled from the spec: Scenario A's decoded instance for
`{"name":"Alice","age":30}`. -/
def scenarioAValid : List StructInstanceField :=
  [StructInstanceField.mk "Name" "name" (FieldVal.fstr "Alice") [VRule.required, VRule.minRule 3],
   StructInstanceField.mk "Age" "age" (FieldVal.fint 30) []]

/-- Modelled from the spec: a valid leading field for Scenario B. -/
def scenarioBName : StructInstanceField :=
  StructInstanceField.mk "Name" "name" (FieldVal.fstr "Alice") [VRule.required, VRule.minRule 3]

/-- Modelled from the spec: Scenario B's `age` field holding `150` against
an upper bound of `120`. -/
def scenarioBAge : StructInstanceField :=
  StructInstanceField.mk "Age" "age" (FieldVal.fint 150)
    [VRule.required, VRule.gteRule 0, VRule.lteRule 120]

/-- Modelled from the spec: Scenario B's `category` field holding `"D"`
against `oneof=admin user guest`. -/
def scenarioBCategory : StructInstanceField :=
  StructInstanceField.mk "Category" "category" (FieldVal.fstr "D")
    [VRule.required, VRule.oneofRule ["admin", "user", "guest"]]

/-! ## Invariants of the derived required list -/

/-- `contains` decides list membership. -/
theorem contains_iff (l : List String) (x : String) : contains l x = true ↔ x ∈ l := by
  simp [contains]

/-- `parsePart` either leaves the required list unchanged or appends the
field name, and appends only when the name was absent. -/
theorem parsePart_req_shape (fn : String) (acc : SchemaProp × List String × List String)
    (p : String) :
    (parsePart fn acc p).2.1 = acc.2.1 ∨
      ((parsePart fn acc p).2.1 = acc.2.1 ++ [fn] ∧ fn ∉ acc.2.1) := by
  unfold parsePart
  by_cases c1 : trimSpace p = "required"
  · rw [if_pos c1]
    by_cases c2 : contains acc.2.1 fn = true
    · rw [if_pos c2]
      exact Or.inl rfl
    · rw [if_neg c2]
      exact Or.inr ⟨rfl, fun hm => c2 ((contains_iff acc.2.1 fn).mpr hm)⟩
  · rw [if_neg c1]
    left
    repeat' split
    all_goals rfl

/-- Membership in the required list survives `parsePart`. -/
theorem parsePart_mono (fn x : String) (acc : SchemaProp × List String × List String)
    (p : String) (h : x ∈ acc.2.1) : x ∈ (parsePart fn acc p).2.1 := by
  rcases parsePart_req_shape fn acc p with h1 | ⟨h1, _⟩ <;> rw [h1]
  · exact h
  · exact List.mem_append_left _ h

/-- `parsePart` keeps the required list duplicate-free. -/
theorem parsePart_nodup (fn : String) (acc : SchemaProp × List String × List String)
    (p : String) (h : acc.2.1.Nodup) : (parsePart fn acc p).2.1.Nodup := by
  rcases parsePart_req_shape fn acc p with h1 | ⟨h1, h2⟩ <;> rw [h1]
  · exact h
  · rw [← List.concat_eq_append]
    exact List.Nodup.concat h2 h

/-- A part trimming to the bare token `required` puts the field name into
the required list. -/
theorem parsePart_mem_required (fn : String) (acc : SchemaProp × List String × List String)
    (p : String) (h : trimSpace p = "required") : fn ∈ (parsePart fn acc p).2.1 := by
  unfold parsePart
  rw [h, if_pos rfl]
  by_cases hc : contains acc.2.1 fn = true
  · rw [if_pos hc]
    exact (contains_iff acc.2.1 fn).mp hc
  · rw [if_neg hc]
    exact List.mem_append_right _ (by simp)

/-- Folding `parsePart` over a part list preserves membership. -/
theorem foldParts_mono (fn x : String) (parts : List String)
    (acc : SchemaProp × List String × List String) (h : x ∈ acc.2.1) :
    x ∈ (parts.foldl (parsePart fn) acc).2.1 := by
  induction parts generalizing acc with
  | nil => exact h
  | cons p ps ih => exact ih _ (parsePart_mono fn x acc p h)

/-- Folding `parsePart` over a part list preserves freedom from
duplicates. -/
theorem foldParts_nodup (fn : String) (parts : List String)
    (acc : SchemaProp × List String × List String) (h : acc.2.1.Nodup) :
    (parts.foldl (parsePart fn) acc).2.1.Nodup := by
  induction parts generalizing acc with
  | nil => exact h
  | cons p ps ih => exact ih _ (parsePart_nodup fn acc p h)

/-- If some part trims to `required`, the fold puts the field name into the
required list. -/
theorem foldParts_mem (fn : String) (parts : List String)
    (acc : SchemaProp × List String × List String)
    (h : ∃ p ∈ parts, trimSpace p = "required") :
    fn ∈ (parts.foldl (parsePart fn) acc).2.1 := by
  induction parts generalizing acc with
  | nil => simp at h
  | cons p ps ih =>
    rcases h with ⟨q, hq, hreq⟩
    rcases List.mem_cons.mp hq with rfl | hq2
    · exact foldParts_mono fn fn ps _ (parsePart_mem_required fn acc q hreq)
    · exact ih _ ⟨q, hq2, hreq⟩

/-- `parseJSONSchemaTag` preserves membership in the required list. -/
theorem parseJSONSchemaTag_mono (tag : String) (prop : SchemaProp) (required : List String)
    (fn x : String) (h : x ∈ required) : x ∈ (parseJSONSchemaTag tag prop required fn).2 :=
  foldParts_mono fn x (splitComma tag) (prop, required, []) h

/-- `parseJSONSchemaTag` keeps the required list duplicate-free. -/
theorem parseJSONSchemaTag_nodup (tag : String) (prop : SchemaProp) (required : List String)
    (fn : String) (h : required.Nodup) : (parseJSONSchemaTag tag prop required fn).2.Nodup :=
  foldParts_nodup fn (splitComma tag) (prop, required, []) h

/-- A bare `required` part of the jsonschema tag puts the field name into
the required list. -/
theorem parseJSONSchemaTag_mem (tag : String) (prop : SchemaProp) (required : List String)
    (fn : String) (h : ∃ p ∈ splitComma tag, trimSpace p = "required") :
    fn ∈ (parseJSONSchemaTag tag prop required fn).2 :=
  foldParts_mem fn (splitComma tag) (prop, required, []) h

/-- The jsonschema tag block preserves membership in the required list. -/
theorem schemaTagPass_mono (f : StructField) (req : List String) (x : String)
    (h : x ∈ req) : x ∈ (schemaTagPass f req).2 := by
  unfold schemaTagPass
  split
  · exact parseJSONSchemaTag_mono _ _ _ _ _ h
  · exact h

/-- The jsonschema tag block keeps the required list duplicate-free. -/
theorem schemaTagPass_nodup (f : StructField) (req : List String)
    (h : req.Nodup) : (schemaTagPass f req).2.Nodup := by
  unfold schemaTagPass
  split
  · exact parseJSONSchemaTag_nodup _ _ _ _ h
  · exact h

/-- A bare `required` part of the jsonschema tag marks the wire name (the
tag is then in particular non-empty, so the block runs). -/
theorem schemaTagPass_mem (f : StructField) (req : List String)
    (h : ∃ p ∈ splitComma f.jsonschemaTag, trimSpace p = "required") :
    wireName f ∈ (schemaTagPass f req).2 := by
  unfold schemaTagPass
  split
  · exact parseJSONSchemaTag_mem _ _ _ _ h
  · rename_i htag
    exfalso
    rw [not_ne_iff] at htag
    rcases h with ⟨p, hp, hreq⟩
    rw [htag] at hp
    rw [show splitComma "" = [""] from rfl] at hp
    simp at hp
    rw [hp] at hreq
    exact absurd hreq (by decide)

/-- The validate tag block preserves membership in the required list. -/
theorem validateTagPass_mono (f : StructField) (jn : String) (req : List String)
    (x : String) (h : x ∈ req) : x ∈ validateTagPass f jn req := by
  unfold validateTagPass
  split
  · exact List.mem_append_left _ h
  · exact h

/-- The validate tag block keeps the required list duplicate-free. -/
theorem validateTagPass_nodup (f : StructField) (jn : String) (req : List String)
    (h : req.Nodup) : (validateTagPass f jn req).Nodup := by
  unfold validateTagPass
  split
  · rename_i hc
    rw [← List.concat_eq_append]
    exact List.Nodup.concat (fun hm => hc.2.2 ((contains_iff req jn).mpr hm)) h
  · exact h

/-- A non-empty validate tag containing `required` as a substring marks the
wire name. -/
theorem validateTagPass_mem (f : StructField) (jn : String) (req : List String)
    (hv : f.validateTag ≠ "") (hs : strContains f.validateTag "required" = true) :
    jn ∈ validateTagPass f jn req := by
  unfold validateTagPass
  split
  · exact List.mem_append_right _ (by simp)
  · rename_i hc
    push_neg at hc
    exact (contains_iff req jn).mp (hc hv hs)

/-- The field step preserves membership in the required list. -/
theorem processField_mono (acc : List (String × SchemaProp) × List String)
    (f : StructField) (x : String) (h : x ∈ acc.2) : x ∈ (processField acc f).2 := by
  unfold processField
  split
  · exact h
  · exact validateTagPass_mono f (wireName f) (schemaTagPass f acc.2).2 x
      (schemaTagPass_mono f acc.2 x h)

/-- The field step keeps the required list duplicate-free. -/
theorem processField_nodup (acc : List (String × SchemaProp) × List String)
    (f : StructField) (h : acc.2.Nodup) : (processField acc f).2.Nodup := by
  unfold processField
  split
  · exact h
  · exact validateTagPass_nodup f (wireName f) (schemaTagPass f acc.2).2
      (schemaTagPass_nodup f acc.2 h)

/-- A non-skipped field marked required (in either annotation source) has
its wire name in the required list after its own step. -/
theorem processField_mem (acc : List (String × SchemaProp) × List String)
    (f : StructField) (hj : ¬(f.jsonTag = "" ∨ f.jsonTag = "-"))
    (hreq : markedRequired f = true) : wireName f ∈ (processField acc f).2 := by
  unfold processField
  rw [if_neg hj]
  simp only [markedRequired, Bool.or_eq_true, Bool.and_eq_true, List.any_eq_true,
    beq_iff_eq, bne_iff_ne] at hreq
  rcases hreq with hA | ⟨hv, hs⟩
  · exact validateTagPass_mono f (wireName f) (schemaTagPass f acc.2).2 (wireName f)
      (schemaTagPass_mem f acc.2 hA)
  · exact validateTagPass_mem f (wireName f) (schemaTagPass f acc.2).2 hv hs

/-- Folding the field loop preserves membership in the required list. -/
theorem foldFields_mono (fields : List StructField)
    (acc : List (String × SchemaProp) × List String) (x : String)
    (h : x ∈ acc.2) : x ∈ (fields.foldl processField acc).2 := by
  induction fields generalizing acc with
  | nil => exact h
  | cons g gs ih => exact ih _ (processField_mono acc g x h)

/-- Folding the field loop keeps the required list duplicate-free. -/
theorem foldFields_nodup (fields : List StructField)
    (acc : List (String × SchemaProp) × List String) (h : acc.2.Nodup) :
    (fields.foldl processField acc).2.Nodup := by
  induction fields generalizing acc with
  | nil => exact h
  | cons g gs ih => exact ih _ (processField_nodup acc g h)

/-- A non-skipped marked-required field of the list has its wire name in the
required list after the whole fold. -/
theorem foldFields_mem (fields : List StructField)
    (acc : List (String × SchemaProp) × List String) (f : StructField)
    (hmem : f ∈ fields) (hj : ¬(f.jsonTag = "" ∨ f.jsonTag = "-"))
    (hreq : markedRequired f = true) :
    wireName f ∈ (fields.foldl processField acc).2 := by
  induction fields generalizing acc with
  | nil => simp at hmem
  | cons g gs ih =>
    rcases List.mem_cons.mp hmem with rfl | hmem2
    · exact foldFields_mono gs _ (wireName f) (processField_mem acc f hj hreq)
    · exact ih _ hmem2

/-- `buildSchema` on a struct type always succeeds, with the fold's
properties and required list. -/
theorem buildSchema_tstruct (fields : List StructField) :
    buildSchema (GoType.tstruct fields) =
      Except.ok (ToolInputSchema.mk "object" (fields.foldl processField ([], [])).1
        (fields.foldl processField ([], [])).2) := rfl

/-! ## Additional helper lemmas for the claims -/

/-- `collectViolations` distributes over list concatenation. -/
theorem collectViolations_append (l1 l2 : List StructInstanceField) :
    collectViolations (l1 ++ l2) = collectViolations l1 ++ collectViolations l2 := by
  induction l1 with
  | nil => rfl
  | cons g gs ih => simp [collectViolations, ih]

/-- Fields with no violations contribute nothing. -/
theorem collectViolations_clean (l : List StructInstanceField)
    (h : ∀ g ∈ l, fieldViolations g.goName g.value g.rules = []) :
    collectViolations l = [] := by
  induction l with
  | nil => rfl
  | cons g gs ih =>
    simp [collectViolations, h g (by simp), ih (fun x hx => h x (by simp [hx]))]

/-- `takeWhile` over a run satisfying the predicate followed by a failing
element returns exactly the run. -/
theorem takeWhile_all_append (p : Char → Bool) (l : List Char) (x : Char) (t : List Char)
    (hl : ∀ c ∈ l, p c = true) (hx : p x = false) :
    (l ++ x :: t).takeWhile p = l := by
  induction l with
  | nil => simp [List.takeWhile_cons, hx]
  | cons a as ih =>
    simp [List.takeWhile_cons, hl a (by simp), ih (fun c hc => hl c (by simp [hc]))]

/-! ## The claims -/

/-- Claim C1: for every registered tool and every invocation whose argument
map fails to decode into the argument type, or whose decoded instance fails
validation, `createHandler` returns an error-payload result with nil
transport error, and the registered handler is never called (the outcome is
identical for any two handlers). -/
theorem pipeline_skips_handler_on_decode_or_validate_failure {Req Args : Type}
    (bindArguments : Req → Except String Args) (validateStruct : Args → Option GoError)
    (request : Req)
    (hfail : (∃ e, bindArguments request = Except.error e) ∨
      (∃ args err, bindArguments request = Except.ok args ∧ validateStruct args = some err)) :
    ∀ handler handlerB : Args → Except String GoVal,
      (createHandler bindArguments validateStruct handler request).1.isError = true ∧
      (createHandler bindArguments validateStruct handler request).2 = none ∧
      createHandler bindArguments validateStruct handler request
        = createHandler bindArguments validateStruct handlerB request := by
  intro handler handlerB
  rcases hfail with ⟨e, he⟩ | ⟨args, err, hok, hval⟩
  · simp [createHandler, he, NewToolResultError]
  · simp [createHandler, hok, hval, NewToolResultError]

/-- Witness for C1: decode failure on a concrete request yields an error
result, identically for two different handlers. -/
theorem pipeline_skips_handler_on_decode_or_validate_failure_witness :
    (createHandler (fun _ : Nat => (Except.error "bad" : Except String Nat)) (fun _ => none)
        (fun _ => Except.ok GoVal.vnull) 0).1.isError = true ∧
    createHandler (fun _ : Nat => (Except.error "bad" : Except String Nat)) (fun _ => none)
        (fun _ => Except.ok GoVal.vnull) 0
      = createHandler (fun _ : Nat => (Except.error "bad" : Except String Nat)) (fun _ => none)
        (fun _ => Except.error "boom") 0 := by
  have h := pipeline_skips_handler_on_decode_or_validate_failure
    (fun _ : Nat => (Except.error "bad" : Except String Nat)) (fun _ => none) 0
    (Or.inl ⟨"bad", rfl⟩) (fun _ => Except.ok GoVal.vnull) (fun _ => Except.error "boom")
  exact ⟨h.1, h.2.2⟩

/-- Claim C2: for every struct-shaped argument type (after one pointer
dereference) `buildSchema` succeeds and `Register` returns nil error and
adds the tool; for every non-struct argument type `buildSchema` fails and
`Register` returns the wrapped error and leaves the tool list unchanged. -/
theorem register_succeeds_on_struct_fails_otherwise (tools : List Tool)
    (name description : String) (t : GoType) :
    (isStructShape (derefPtr t) = true → ∃ s, buildSchema t = Except.ok s ∧
      Register tools name description t = (tools ++ [Tool.mk name description s], none)) ∧
    (isStructShape (derefPtr t) = false → ∃ e, buildSchema t = Except.error e ∧
      Register tools name description t
        = (tools, some ("failed to build schema for tool " ++ name ++ ": " ++ e))) := by
  constructor
  · intro hs
    cases ht : derefPtr t with
    | tstruct fields =>
      have hb : buildSchema t = Except.ok (ToolInputSchema.mk "object"
          (fields.foldl processField ([], [])).1 (fields.foldl processField ([], [])).2) := by
        unfold buildSchema
        rw [ht]
      exact ⟨_, hb, by simp [Register, hb]⟩
    | tptr e =>
      rw [ht] at hs
      simp [isStructShape] at hs
    | tkind k =>
      rw [ht] at hs
      simp [isStructShape] at hs
  · intro hs
    cases ht : derefPtr t with
    | tstruct fields =>
      rw [ht] at hs
      simp [isStructShape] at hs
    | tptr e =>
      have hb : buildSchema t
          = Except.error ("argsType must be a struct, got " ++ kindName (GoType.tptr e)) := by
        unfold buildSchema
        rw [ht]
      exact ⟨_, hb, by simp [Register, hb]⟩
    | tkind k =>
      have hb : buildSchema t
          = Except.error ("argsType must be a struct, got " ++ kindName (GoType.tkind k)) := by
        unfold buildSchema
        rw [ht]
      exact ⟨_, hb, by simp [Register, hb]⟩

/-- Witness for C2: a concrete struct registers with nil error; a concrete
string type fails with the wrapped shape error and no tool is added. -/
theorem register_succeeds_on_struct_fails_otherwise_witness :
    Register [] "t" "d" (GoType.tstruct [])
      = ([Tool.mk "t" "d" (ToolInputSchema.mk "object" [] [])], none) ∧
    Register [] "t" "d" (GoType.tkind GoKind.kstring)
      = ([], some "failed to build schema for tool t: argsType must be a struct, got string") := by
  constructor
  · rcases (register_succeeds_on_struct_fails_otherwise [] "t" "d" (GoType.tstruct [])).1 rfl
      with ⟨s, hs, hreg⟩
    rw [buildSchema_tstruct] at hs
    injection hs with h2
    rw [hreg, ← h2]
    rfl
  · rcases (register_succeeds_on_struct_fails_otherwise [] "t" "d"
        (GoType.tkind GoKind.kstring)).2 rfl with ⟨e, he, hreg⟩
    have h2 : e = "argsType must be a struct, got string" := by
      rw [show buildSchema (GoType.tkind GoKind.kstring)
          = Except.error "argsType must be a struct, got string" from rfl] at he
      injection he with h3
      exact h3.symm
    rw [hreg, h2]
    rfl

/-- Claim C3: a field of a record argument type carrying a real wire name
(json tag neither absent nor `-`) that is marked required — by a bare
`required` token in its jsonschema tag, by the substring `required` in its
validate tag, or by both, any number of times — has its wire name in the
derived schema's required list exactly once. -/
theorem required_listed_exactly_once (fields : List StructField) (f : StructField)
    (hmem : f ∈ fields) (h1 : f.jsonTag ≠ "") (h2 : f.jsonTag ≠ "-")
    (hreq : markedRequired f = true) (schema : ToolInputSchema)
    (hok : buildSchema (GoType.tstruct fields) = Except.ok schema) :
    schema.required.count (wireName f) = 1 := by
  rw [buildSchema_tstruct] at hok
  injection hok with hs
  subst hs
  have hnd := foldFields_nodup fields ([], []) (by simp)
  have hm := foldFields_mem fields ([], []) f hmem (by push_neg; exact ⟨h1, h2⟩) hreq
  exact List.count_eq_one_of_mem hnd hm

/-- Witness for C3: a field marked required twice in the jsonschema tag and
once more through the validate tag is listed exactly once. -/
theorem required_listed_exactly_once_witness :
    markedRequired doublyMarkedField = true ∧
    buildSchema (GoType.tstruct [doublyMarkedField]) = Except.ok (ToolInputSchema.mk "object"
      [("name", SchemaProp.mk "string" none none none none none none)] ["name"]) ∧
    (ToolInputSchema.mk "object"
      [("name", SchemaProp.mk "string" none none none none none none)] ["name"]).required.count
        (wireName doublyMarkedField) = 1 := by
  refine ⟨by decide, rfl, ?_⟩
  exact required_listed_exactly_once [doublyMarkedField] doublyMarkedField (by simp)
    (by decide) (by decide) (by decide) _ rfl

/-- Claim C4: a field (with a real wire name) whose validate tag contains
the literal string `required` anywhere — the check is a substring match on
the whole tag, not rule-by-rule tokenization — has its wire name added to
the derived schema's required list. -/
theorem validate_substring_marks_required (fields : List StructField) (f : StructField)
    (hmem : f ∈ fields) (h1 : f.jsonTag ≠ "") (h2 : f.jsonTag ≠ "-")
    (hv : f.validateTag ≠ "") (hs : strContains f.validateTag "required" = true)
    (schema : ToolInputSchema)
    (hok : buildSchema (GoType.tstruct fields) = Except.ok schema) :
    wireName f ∈ schema.required := by
  rw [buildSchema_tstruct] at hok
  injection hok with hsch
  subst hsch
  have hmk : markedRequired f = true := by
    simp [markedRequired, hs, bne_iff_ne, hv]
  exact foldFields_mem fields ([], []) f hmem (by push_neg; exact ⟨h1, h2⟩) hmk

/-- Witness for C4: `required` embedded inside the different token
`required_without` still marks the field required. -/
theorem validate_substring_marks_required_witness :
    strContains "required_without" "required" = true ∧
    buildSchema (GoType.tstruct [embeddedTokenField]) = Except.ok (ToolInputSchema.mk "object"
      [("flag", SchemaProp.mk "string" none none none none none none)] ["flag"]) ∧
    wireName embeddedTokenField ∈ (ToolInputSchema.mk "object"
      [("flag", SchemaProp.mk "string" none none none none none none)] ["flag"]).required := by
  refine ⟨by decide, rfl, ?_⟩
  exact validate_substring_marks_required [embeddedTokenField] embeddedTokenField (by simp)
    (by decide) (by decide) (by decide) (by decide) _ rfl

/-- Claim C5: when the handler is reached and returns an error with message
`m`, `createHandler` returns an error-flagged result whose text is exactly
`handler error: ` followed by `m`, with nil transport error. -/
theorem handler_error_wrapped_in_result {Req Args : Type}
    (bindArguments : Req → Except String Args) (validateStruct : Args → Option GoError)
    (handler : Args → Except String GoVal) (request : Req) (args : Args) (m : String)
    (hbind : bindArguments request = Except.ok args)
    (hval : validateStruct args = none)
    (hh : handler args = Except.error m) :
    createHandler bindArguments validateStruct handler request
      = (NewToolResultError ("handler error: " ++ m), none) ∧
    (NewToolResultError ("handler error: " ++ m)).isError = true := by
  constructor
  · simp [createHandler, hbind, hval, hh]
  · rfl

/-- Witness for C5: a handler error `division by zero` yields exactly the
message `handler error: division by zero`. -/
theorem handler_error_wrapped_in_result_witness :
    createHandler (fun _ : Nat => (Except.ok 0 : Except String Nat)) (fun _ => none)
      (fun _ => Except.error "division by zero") 0
      = (NewToolResultError "handler error: division by zero", none) := by
  have h := handler_error_wrapped_in_result (fun _ : Nat => (Except.ok 0 : Except String Nat))
    (fun _ => none) (fun _ => Except.error "division by zero") 0 0 "division by zero" rfl rfl rfl
  rw [h.1]
  rfl

/-- Claim C10: when the handler is reached and returns a nil result with nil
error, the invocation still succeeds: the encode stage produces a non-error
result whose text is the literal JSON text `null`. -/
theorem nil_result_encodes_as_null_text {Req Args : Type}
    (bindArguments : Req → Except String Args) (validateStruct : Args → Option GoError)
    (handler : Args → Except String GoVal) (request : Req) (args : Args)
    (hbind : bindArguments request = Except.ok args)
    (hval : validateStruct args = none)
    (hh : handler args = Except.ok GoVal.vnull) :
    createHandler bindArguments validateStruct handler request
      = (NewToolResultText "null", none) ∧
    (NewToolResultText "null").isError = false := by
  constructor
  · simp [createHandler, hbind, hval, hh, jsonMarshal, unmarshalsToMap, renderJson]
  · rfl

/-- Witness for C10: a concrete nil-returning handler produces the non-error
text result `null`. -/
theorem nil_result_encodes_as_null_text_witness :
    createHandler (fun _ : Nat => (Except.ok 0 : Except String Nat)) (fun _ => none)
      (fun _ => Except.ok GoVal.vnull) 0 = (NewToolResultText "null", none) :=
  (nil_result_encodes_as_null_text (fun _ : Nat => (Except.ok 0 : Except String Nat))
    (fun _ => none) (fun _ => Except.ok GoVal.vnull) 0 0 rfl rfl rfl).1

/-- Claim C6: a decoded instance with one violation in each of two fields
yields exactly those two violation entries, one per field, in field order
(no short-circuit across fields), and the sequence renders as the single
semicolon-joined message with the `validation failed: ` prefix. -/
theorem violations_fully_collected_and_rendered
    (pre mid post : List StructInstanceField) (f1 f2 : StructInstanceField)
    (e1 e2 : LibFieldError)
    (hpre : ∀ g ∈ pre, fieldViolations g.goName g.value g.rules = [])
    (hmid : ∀ g ∈ mid, fieldViolations g.goName g.value g.rules = [])
    (hpost : ∀ g ∈ post, fieldViolations g.goName g.value g.rules = [])
    (hf1 : fieldViolations f1.goName f1.value f1.rules = [e1])
    (hf2 : fieldViolations f2.goName f2.value f2.rules = [e2]) :
    validateStructModel (pre ++ f1 :: mid ++ f2 :: post)
      = some (GoError.validationErrors [e1, e2]) ∧
    errorMessage (formatValidationErrors (GoError.validationErrors [e1, e2]))
      = "validation failed: " ++ (e1.field ++ ": " ++ formatFieldError e1 ++ "; "
          ++ (e2.field ++ ": " ++ formatFieldError e2)) := by
  have hcol : collectViolations (pre ++ f1 :: mid ++ f2 :: post) = [e1, e2] := by
    rw [collectViolations_append, collectViolations_append,
      collectViolations_clean pre hpre]
    simp only [collectViolations, hf1, hf2, collectViolations_clean mid hmid,
      collectViolations_clean post hpost]
    simp
  constructor
  · unfold validateStructModel
    rw [hcol]
    rfl
  · simp [errorMessage, formatValidationErrors, ValidationErrors.Error, joinSep,
      ValidationError.Error, String.append_assoc]

/-- Witness for C6 (Scenario B): `age=150` against `lte=120` and
`category="D"` against `oneof=admin user guest` give exactly two violations,
in field order, rendered as one aggregate message. -/
theorem violations_fully_collected_and_rendered_witness :
    validateStructModel [scenarioBName, scenarioBAge, scenarioBCategory]
      = some (GoError.validationErrors
          [LibFieldError.mk "Age" "lte" "120",
           LibFieldError.mk "Category" "oneof" "admin user guest"]) ∧
    errorMessage (formatValidationErrors (GoError.validationErrors
        [LibFieldError.mk "Age" "lte" "120",
         LibFieldError.mk "Category" "oneof" "admin user guest"]))
      = "validation failed: Age: must be less than or equal to 120; Category: must be one of: admin user guest" := by
  have h := violations_fully_collected_and_rendered [scenarioBName] [] []
    scenarioBAge scenarioBCategory
    (LibFieldError.mk "Age" "lte" "120")
    (LibFieldError.mk "Category" "oneof" "admin user guest")
    (by intro g hg; rw [List.mem_singleton.mp hg]; rfl)
    (by intro g hg; simp at hg)
    (by intro g hg; simp at hg)
    rfl rfl
  refine ⟨h.1, ?_⟩
  rw [h.2]
  rfl

/-- Counterexample for C7: on Scenario A's invalid instance the single
violation is addressed to the Go struct field name `Name` (the library's
default `Field()`), not to the wire name `name` as the claim states. -/
theorem validation_addressing_counterexample :
    collectViolations scenarioAInvalid = [LibFieldError.mk "Name" "min" "3"] ∧
    formatValidationErrors (GoError.validationErrors (collectViolations scenarioAInvalid))
      = FormattedError.aggregated [ValidationError.mk "Name" "must be at least 3"] ∧
    (StructInstanceField.mk "Name" "name" (FieldVal.fstr "Al")
        [VRule.required, VRule.minRule 3]).jsonName = "name" ∧
    (ValidationError.mk "Name" "must be at least 3").Field ≠ "name" :=
  ⟨rfl, rfl, rfl, by decide⟩

/-- Claim C7 amended: decoding Scenario A's `{"name":"Al","age":30}` and
validating reports exactly one violation with message `must be at least 3`,
addressed to the in-language field name `Name` (no wire-name translation is
configured, so the Go struct field name, not the wire name, addresses the
violation); `{"name":"Alice","age":30}` validates with no violations. -/
theorem scenarioA_single_violation_on_go_field_name :
    formatValidationErrors (GoError.validationErrors (collectViolations scenarioAInvalid))
      = FormattedError.aggregated [ValidationError.mk "Name" "must be at least 3"] ∧
    validateStructModel scenarioAValid = none :=
  ⟨rfl, rfl⟩

/-- Counterexample for C8: `parseNumber "3.5"` is not the floating-point
number 3.5 — the integer scan succeeds on the leading digits (trailing input
is not an error for `Sscanf`), producing the integer 3. -/
theorem parseNumber_three_five_counterexample :
    parseNumber "3.5" = TagNum.intVal 3 ∧ parseNumber "3.5" ≠ TagNum.floatVal (7 / 2) :=
  ⟨rfl, by decide⟩

/-- Claim C8 amended: for a `minimum=`/`maximum=`/`minLength=`/`maxLength=`
value, integer syntax is tried first and succeeds on any value starting with
a digit run, taking only the leading digits and ignoring the rest (so `3.5`
yields the integer 3, not a float); the floating-point fallback applies only
when no leading integer is scannable (so `.5` yields the number 1/2); a
value with neither shape is kept verbatim as its original text. -/
theorem parseNumber_scan_order (ds rest : List Char) (hne : ds ≠ [])
    (hdig : ∀ c ∈ ds, c.isDigit = true)
    (hnws : ∀ c ∈ ds, c.isWhitespace = false)
    (hsig : ∀ c ∈ ds, c ≠ '-' ∧ c ≠ '+') :
    parseNumber (String.mk (ds ++ '.' :: rest)) = TagNum.intVal (digitsValue ds) ∧
    parseNumber ".5" = TagNum.floatVal (1 / 2) ∧
    parseNumber "abc" = TagNum.strVal "abc" := by
  refine ⟨?_, ?_, rfl⟩
  · cases ds with
    | nil => exact absurd rfl hne
    | cons d ds2 =>
      have hmem : d ∈ d :: ds2 := by simp
      have hdrop : (String.mk ((d :: ds2) ++ '.' :: rest)).data.dropWhile Char.isWhitespace
          = (d :: ds2) ++ '.' :: rest := by
        simp [List.dropWhile_cons, hnws d hmem]
      have hsg2 : (splitSign ((d :: ds2) ++ '.' :: rest)).2 = (d :: ds2) ++ '.' :: rest := by
        simp [splitSign, (hsig d hmem).1, (hsig d hmem).2]
      have hsg1 : (splitSign ((d :: ds2) ++ '.' :: rest)).1 = false := by
        simp [splitSign, (hsig d hmem).1, (hsig d hmem).2]
      have htake : ((d :: ds2) ++ '.' :: rest).takeWhile Char.isDigit = d :: ds2 :=
        takeWhile_all_append Char.isDigit (d :: ds2) '.' rest hdig (by decide)
      have hint : scanIntD (String.mk ((d :: ds2) ++ '.' :: rest))
          = some ((digitsValue (d :: ds2) : Int)) := by
        simp only [scanIntD]
        rw [hdrop, hsg2, hsg1, htake]
        simp
      rw [List.cons_append] at hint
      simp [parseNumber, hint]
  · have h1 : scanIntD ".5" = none := rfl
    have h2 : scanFloatF ".5" = scanExp ((0 : Rat) + (5 : Rat) / (10 : Rat) ^ 1) [] := rfl
    have h4 : ((0 : Rat) + (5 : Rat) / (10 : Rat) ^ 1) = 1 / 2 := by norm_num
    have h5 : ∀ m : Rat, scanExp m [] = some m := fun m => rfl
    simp only [parseNumber, h1, h2, h4, h5]

/-- Witness for C8 amended: the digit run `3` followed by `.5` scans as the
integer 3. -/
theorem parseNumber_scan_order_witness :
    parseNumber "3.5" = TagNum.intVal (digitsValue ['3']) ∧
    parseNumber ".5" = TagNum.floatVal (1 / 2) ∧
    parseNumber "abc" = TagNum.strVal "abc" := by
  have h := parseNumber_scan_order ['3'] ['5'] (by decide) (by decide) (by decide) (by decide)
  have hs : String.mk ['3', '.', '5'] = "3.5" := by decide
  exact ⟨by rw [← hs]; exact h.1, h.2.1, h.2.2⟩

/-- Counterexample for C9: with both descriptions absent the synthesized
default is `Execute greet command`, not `Execute greet` as the claim
states. -/
theorem registerCobra_default_description_counterexample :
    RegisterCobra [] (CobraCommand.mk "greet" "" "") (GoType.tstruct [])
      = ([Tool.mk "greet" "Execute greet command" (ToolInputSchema.mk "object" [] [])], none) ∧
    "Execute greet command" ≠ "Execute greet" :=
  ⟨rfl, by decide⟩

/-- Claim C9 amended: registering from a command with an empty `Use` fails
with an error and leaves the tool listing unchanged; otherwise the
description is the short description, falling back to the long description,
falling back to the synthesized default `Execute name command`. -/
theorem registerCobra_identifier_and_description_fallback (tools : List Tool)
    (cmd : CobraCommand) (t : GoType) (fields : List StructField) :
    (cmd.use = "" →
      RegisterCobra tools cmd t = (tools, some "cobra command must have a Use field")) ∧
    (cmd.use ≠ "" → ∃ s, buildSchema (GoType.tstruct fields) = Except.ok s ∧
      RegisterCobra tools cmd (GoType.tstruct fields) =
        (tools ++ [Tool.mk cmd.use
          (if cmd.short ≠ "" then cmd.short
           else if cmd.long ≠ "" then cmd.long
           else "Execute " ++ cmd.use ++ " command") s], none)) := by
  constructor
  · intro h
    unfold RegisterCobra
    rw [if_pos h]
  · intro h
    refine ⟨_, buildSchema_tstruct fields, ?_⟩
    unfold RegisterCobra
    rw [if_neg h]
    by_cases hshort : cmd.short = ""
    · by_cases hlong : cmd.long = ""
      · simp [Register, buildSchema_tstruct, hshort, hlong]
      · simp [Register, buildSchema_tstruct, hshort, hlong]
    · simp [Register, buildSchema_tstruct, hshort]

/-- Witness for C9 amended: an empty `Use` fails and adds nothing; with both
descriptions empty the registered description is `Execute x command`. -/
theorem registerCobra_identifier_and_description_fallback_witness :
    RegisterCobra [] (CobraCommand.mk "" "s" "") (GoType.tstruct [])
      = ([], some "cobra command must have a Use field") ∧
    RegisterCobra [] (CobraCommand.mk "x" "" "") (GoType.tstruct [])
      = ([Tool.mk "x" "Execute x command" (ToolInputSchema.mk "object" [] [])], none) := by
  constructor
  · exact (registerCobra_identifier_and_description_fallback []
      (CobraCommand.mk "" "s" "") (GoType.tstruct []) []).1 rfl
  · rcases (registerCobra_identifier_and_description_fallback []
        (CobraCommand.mk "x" "" "") (GoType.tstruct []) []).2 (by decide)
      with ⟨s, hs, hreg⟩
    rw [buildSchema_tstruct] at hs
    injection hs with h2
    rw [hreg, ← h2]
    rfl
